import Mathlib

/-!
Verification development for the auction site's wallet-hold/settlement
ledger engine (`auctions/utils.py`, `auctions/views.py`, `auctions/models.py`).

The Python code is shallowly embedded: each database table becomes a list of
rows inside a `St` record, each state-changing view/utility function becomes a
pure function `... → St` (or `Outcome × St`), and Django query idioms
(`filter(...).first()`, `update(...)`, `create(...)`) become list operations.
Monetary `Decimal(12,2)` values are embedded as `Int` numbers of hundredths
(paise), so `Decimal('1.00')` is `100` and `Decimal('200.00')` is `20000`.
Row-level locking has no sequential content and is dropped; everything else
follows the source line by line.
-/

namespace Auction

/-! ## Ledger (`append_ledger_block`, utils.py lines 18-56)

The hash function `hashlib.sha256(...).hexdigest()` is abstracted as a
parameter `digest : String → String`; the serialization fed to it is modelled
exactly: `json.dumps(block_data, sort_keys=True)` over the dict with keys
`data`, `index`, `nonce`, `previous_hash`, `timestamp` (sorted), with the
payload's own JSON serialization passed in as `dataJson`.  The proof-of-work
`while` loop terminates exactly when some nonce produces a digest starting
with `"0000"`; that termination condition is taken as a hypothesis and the
loop's result (the least such nonce, found by counting up from 0) is
`Nat.find`. -/

structure LedgerBlock where
  index : Nat
  timestamp : String
  previous_hash : String
  data : String
  nonce : Nat
  hash : String
  deriving DecidableEq

/-- Serialization `json.dumps(block_data, sort_keys=True)` of the block dict
built in `append_ledger_block`; keys in sorted order are
`data`, `index`, `nonce`, `previous_hash`, `timestamp`. -/
def blockString (index : Nat) (timestamp previous_hash dataJson : String)
    (nonce : Nat) : String :=
  "\x7b\"data\": " ++ dataJson ++
  ", \"index\": " ++ toString index ++
  ", \"nonce\": " ++ toString nonce ++
  ", \"previous_hash\": \"" ++ previous_hash ++
  "\", \"timestamp\": \"" ++ timestamp ++ "\"\x7d"

/-- Hash pre-image claimed by the spec:
`str(index) + "|" + previous_hash + "|" + str(payload)`. -/
def specHashInput (index : Nat) (previous_hash payload : String) : String :=
  toString index ++ "|" ++ previous_hash ++ "|" ++ payload

/-- Genesis `previous_hash` claimed by the spec: an all-zero string of the
digest's hex length (64 characters for sha256). -/
def specGenesisPrev : String := String.mk (List.replicate 64 '0')

/-- Index chosen by `append_ledger_block`: `last_block.index + 1`, or `0` for
an empty ledger (`LedgerBlock.objects.order_by('-index').first()` on a
chain built by appends is its last element). -/
def nextIndex (chain : List LedgerBlock) : Nat :=
  match chain.getLast? with
  | some b => b.index + 1
  | none => 0

/-- Previous hash chosen by `append_ledger_block`: `last_block.hash`, or the
one-character string `"0"` for an empty ledger. -/
def prevHash (chain : List LedgerBlock) : String :=
  match chain.getLast? with
  | some b => b.hash
  | none => "0"

/-- Python `s.startswith(p)`, expressed on the underlying character lists so
that it evaluates inside the kernel. -/
def strStartsWith (s p : String) : Bool :=
  p.data.isPrefixOf s.data

/-- Proof-of-work test from the `while` loop: does nonce `n` give a digest
starting with `"0000"`? -/
def powPred (digest : String → String) (timestamp previous_hash dataJson : String)
    (index : Nat) (n : Nat) : Bool :=
  strStartsWith (digest (blockString index timestamp previous_hash dataJson n)) "0000"

/-- Embedding of `append_ledger_block` (utils.py lines 18-56).  `h` is the
termination condition of the proof-of-work loop; the loop tries nonces
0, 1, 2, ... and stops at the first success, which is `Nat.find h`. -/
def append_ledger_block (digest : String → String) (now : String)
    (chain : List LedgerBlock) (dataJson : String)
    (h : ∃ n, powPred digest now (prevHash chain) dataJson (nextIndex chain) n = true) :
    LedgerBlock :=
  let index := nextIndex chain
  let previous_hash := prevHash chain
  let nonce := Nat.find h
  { index := index
    timestamp := now
    previous_hash := previous_hash
    data := dataJson
    nonce := nonce
    hash := digest (blockString index now previous_hash dataJson nonce) }

/-- Constant digest used to exercise the ledger on concrete inputs; it
satisfies the proof-of-work immediately (nonce 0). -/
def digestConst : String → String := fun _ => "0000"

/-- Prefixing digest used to exercise the ledger on concrete inputs: it is
injective and satisfies the proof-of-work immediately. -/
def digestTag : String → String := fun s => "0000" ++ s

/-- Genesis block produced by `append_ledger_block` on an empty chain with the
tagging digest. -/
def demoGenesis : LedgerBlock :=
  append_ledger_block digestTag "t" [] "\"d\"" ⟨0, by decide⟩

/-! ## Relational state (models.py)

Each Django table becomes a list of rows.  Tables whose default `Meta`
ordering is `['-created_at']` (`WalletHold`, `WalletTransaction`, `Bid`,
orders by creation for the rest) are kept newest-first: `objects.create`
prepends, so `filter(...).first()` under the default ordering is
`List.find?`.  Ledger payload types are tracked as a list of tags (the full
hash-chain mechanics are modelled above). -/

abbrev UserId := Nat
abbrev ItemId := Nat
/-- Currency amounts: `Decimal(12,2)` embedded as an integer number of
hundredths, so `Decimal('1.00')` is `100`. -/
abbrev Money := Int

inductive HoldStatus
  | active
  | released
  | consumed
  deriving DecidableEq

/-- Row of `WalletHold` (models.py lines 207-232). -/
structure WalletHold where
  user : UserId
  item : ItemId
  amount : Money
  status : HoldStatus
  deriving DecidableEq

/-- Row of `Wallet` (models.py lines 172-181). -/
structure Wallet where
  user : UserId
  balance : Money
  deriving DecidableEq

inductive TxKind
  | credit
  | debit
  | hold_reserve
  | hold_release
  | hold_consume
  deriving DecidableEq

/-- Row of `WalletTransaction` (models.py lines 184-204). -/
structure WalletTransaction where
  user : UserId
  item : Option ItemId
  kind : TxKind
  amount : Money
  balance_after : Money
  deriving DecidableEq

/-- Row of `Bid` (models.py lines 48-60). -/
structure Bid where
  item : ItemId
  bidder : UserId
  amount : Money
  created_at : Nat
  is_active : Bool
  deriving DecidableEq

/-- Row of `AuctionItem` (models.py lines 10-45), restricted to the fields the
settlement/bidding engine reads. -/
structure AuctionItem where
  id : ItemId
  owner : UserId
  starting_price : Money
  starts_at : Nat
  ends_at : Nat
  is_active : Bool
  is_settled : Bool
  deriving DecidableEq

/-- Row of `AuctionParticipant` (models.py lines 63-81), restricted to the
fields read by bidding and payment effects. -/
structure AuctionParticipant where
  item : ItemId
  user : UserId
  is_booked : Bool
  paid : Bool
  penalty_due : Bool
  booking_code : String
  deriving DecidableEq

/-- Row of `Order` (models.py lines 117-126). -/
structure Order where
  item : ItemId
  buyer : UserId
  amount : Money
  status : String
  deriving DecidableEq

/-- Row of `Payment` (models.py lines 84-114), restricted to the fields read
by `apply_payment_effects`. -/
structure Payment where
  id : Nat
  item : Option ItemId
  buyer : UserId
  amount : Money
  purpose : String
  status : String
  processed_at : Option Nat
  deriving DecidableEq

/-- Row of the audit `Transaction` table. -/
structure AuditTx where
  user : UserId
  item : Option ItemId
  tx_type : String
  status : String
  amount : Money
  deriving DecidableEq

/-- The database state visible to the wallet/hold/settlement engine. -/
structure St where
  items : List AuctionItem
  bids : List Bid
  holds : List WalletHold
  wallets : List Wallet
  wtxs : List WalletTransaction
  orders : List Order
  payments : List Payment
  participants : List AuctionParticipant
  audits : List AuditTx
  ledger : List String
  deriving DecidableEq

/-- Time as seen by the views: `timezone.now()` for interval comparisons plus
the local hour used by the market-hours rule in `can_accept_bids`. -/
structure Clock where
  now : Nat
  hour : Nat
  deriving DecidableEq

/-- Django's `QuerySet.update`/`save` on the first row matching a predicate
(the row identity returned by `filter(...).first()`). -/
def updateFirst (p : α → Bool) (f : α → α) : List α → List α
  | [] => []
  | a :: as => if p a then f a :: as else a :: updateFirst p f as

/-! ## Query helpers shared by the views and utilities -/

/-- Predicate of `WalletHold.objects.filter(item=item, user=user, status='active')`. -/
def isActiveFor (itemId : ItemId) (user : UserId) (h : WalletHold) : Bool :=
  decide (h.item = itemId ∧ h.user = user ∧ h.status = HoldStatus.active)

/-- First active hold for `(item, user)`; `filter(...).first()` under the
newest-first default ordering. -/
def findActiveHold (st : St) (itemId : ItemId) (user : UserId) : Option WalletHold :=
  st.holds.find? (isActiveFor itemId user)

/-- Lookup of `AuctionItem.objects.get(pk=itemId)`. -/
def findItem (st : St) (itemId : ItemId) : Option AuctionItem :=
  st.items.find? fun i => decide (i.id = itemId)

/-- Lookup of `Payment.objects.get(pk=pid)`. -/
def findPayment (st : St) (pid : Nat) : Option Payment :=
  st.payments.find? fun p => decide (p.id = pid)

/-- `AuctionParticipant.objects.filter(item=item, user=user).first()`. -/
def findParticipant (st : St) (itemId : ItemId) (user : UserId) : Option AuctionParticipant :=
  st.participants.find? fun p => decide (p.item = itemId ∧ p.user = user)

/-- Row created by `AuctionParticipant.objects.get_or_create` with model
defaults. -/
def defaultParticipant (itemId : ItemId) (user : UserId) : AuctionParticipant :=
  { item := itemId, user := user, is_booked := false, paid := false,
    penalty_due := false, booking_code := "" }

/-- State effect of `AuctionParticipant.objects.get_or_create(item=item, user=user)`. -/
def ensureParticipant (st : St) (itemId : ItemId) (user : UserId) : St :=
  match findParticipant st itemId user with
  | some _ => st
  | none => { st with participants := defaultParticipant itemId user :: st.participants }

/-- Wallet row for `user` in a wallet table, or the fresh zero-balance row
`Wallet.objects.get_or_create` would insert. -/
def lookupWallet (ws : List Wallet) (user : UserId) : Wallet :=
  match ws.find? fun w => decide (w.user = user) with
  | some w => w
  | none => { user := user, balance := 0 }

/-- Table effect of `Wallet.objects.get_or_create(user=user)`. -/
def ensureWalletList (ws : List Wallet) (user : UserId) : List Wallet :=
  match ws.find? fun w => decide (w.user = user) with
  | some _ => ws
  | none => ({ user := user, balance := 0 } : Wallet) :: ws

/-- Value returned by `get_or_create_wallet` (utils.py lines 70-73): the
user's wallet row, or a fresh zero-balance one. -/
def get_or_create_wallet (st : St) (user : UserId) : Wallet :=
  lookupWallet st.wallets user

/-- State effect of `get_or_create_wallet`: inserts the zero-balance row when
none exists. -/
def ensureWallet (st : St) (user : UserId) : St :=
  { st with wallets := ensureWalletList st.wallets user }

/-- Balance a user's wallet row holds (`0` when no row exists yet, the value
a fresh `get_or_create_wallet` row would carry). -/
def walletBalance (st : St) (user : UserId) : Money :=
  (get_or_create_wallet st user).balance

/-- Total of the user's active holds, as summed in `get_available_balance`
(utils.py lines 62-66). -/
def sumActiveHolds (st : St) (user : UserId) : Money :=
  ((st.holds.filter fun h => decide (h.user = user ∧ h.status = HoldStatus.active)).map
    fun h => h.amount).sum

/-- Embedding of `get_available_balance` (utils.py lines 59-67): wallet
balance minus the sum of the user's active holds, with no flooring. -/
def get_available_balance (st : St) (user : UserId) : Money :=
  (get_or_create_wallet st user).balance - sumActiveHolds st user

/-- Ordering test for `order_by('-amount', 'created_at')`: should `a` come
before `b`? -/
def betterBid (a b : Bid) : Bool :=
  decide (b.amount < a.amount ∨ (a.amount = b.amount ∧ a.created_at < b.created_at))

/-- Embedding of `item.bids.filter(is_active=True).order_by('-amount',
'created_at').first()` (models.py line 33): the current leader. -/
def highestActiveBid (st : St) (itemId : ItemId) : Option Bid :=
  (st.bids.filter fun b => decide (b.item = itemId) && b.is_active).foldl
    (fun best b =>
      match best with
      | none => some b
      | some a => if betterBid b a then some b else some a)
    none

/-- Embedding of `AuctionItem.can_accept_bids` (models.py lines 35-41),
including the market-hours rule on the local hour. -/
def canAcceptBids (item : AuctionItem) (c : Clock) : Bool :=
  (item.is_active && decide (item.starts_at ≤ c.now) && decide (c.now < item.ends_at))
    && (decide (6 ≤ c.hour) || decide (c.hour < 1))

/-! ## Hold mutations shared by the views -/

/-- Raising an existing active hold to `amount` and logging the
`hold_reserve` delta (views.py lines 270-280); the wallet row exists at this
point (it was locked just above), so `get_or_create_wallet` only reads. -/
def raiseHold (st : St) (itemId : ItemId) (user : UserId) (amount delta : Money) : St :=
  { st with
    holds := updateFirst (isActiveFor itemId user) (fun h => { h with amount := amount }) st.holds
    wtxs := { user := user, item := some itemId, kind := TxKind.hold_reserve, amount := delta,
              balance_after := (get_or_create_wallet st user).balance } :: st.wtxs }

/-- Creating a fresh active hold at `amount` and logging the full
`hold_reserve` (views.py lines 281-289). -/
def createHold (st : St) (itemId : ItemId) (user : UserId) (amount : Money) : St :=
  { st with
    holds := ({ user := user, item := itemId, amount := amount,
                status := HoldStatus.active } : WalletHold) :: st.holds
    wtxs := { user := user, item := some itemId, kind := TxKind.hold_reserve, amount := amount,
              balance_after := (get_or_create_wallet st user).balance } :: st.wtxs }

/-- Releasing the first active hold for `(item, user)` if one exists and
logging `hold_release` (views.py lines 291-304 and 783-795): the hold's
status becomes `released`, the wallet is fetched via `get_or_create_wallet`,
and a `hold_release` transaction snapshots its balance. -/
def releaseHold (st : St) (itemId : ItemId) (user : UserId) : St :=
  match findActiveHold st itemId user with
  | none => st
  | some ph =>
    let holds' := updateFirst (isActiveFor itemId user)
      (fun h => { h with status := HoldStatus.released }) st.holds
    let st'' := ensureWallet { st with holds := holds' } user
    let tx : WalletTransaction :=
      { user := user, item := some itemId, kind := TxKind.hold_release,
        amount := ph.amount, balance_after := (get_or_create_wallet st'' user).balance }
    { st'' with wtxs := tx :: st''.wtxs }

/-! ## Bidding engine (`place_bid`, views.py lines 188-346)

The HTTP plumbing (redirects, messages, the form parse of `amount`, the
channel-layer broadcast) is outside the embedding; every rejection branch is
an explicit outcome.  The owner of the item cannot bid, participants and
seats are checked before the atomic section, and the minimum-allowed amount
and available balance are re-checked inside it, exactly as in the source. -/

inductive BidOutcome
  | itemNotFound
  | ownerCannotBid
  | biddingClosed
  | seatNotBooked
  | penaltyDue
  | insufficientParticipants
  | bidTooLow
  | bidUnreasonablyHigh
  | insufficientFunds
  | success
  deriving DecidableEq

/-- Hold reserve/raise step of the atomic section (views.py lines 269-289):
raise the existing active hold when the bid exceeds it (no-op otherwise),
or create a fresh hold at the bid amount. -/
def placeBidReserve (st2 : St) (itemId : ItemId) (user : UserId) (amount delta : Money) : St :=
  match findActiveHold st2 itemId user with
  | some _ => if 0 < delta then raiseHold st2 itemId user amount delta else st2
  | none => createHold st2 itemId user amount

/-- Outbid release step (views.py lines 291-304): release the previous
leader's hold when the previous leader is a different user. -/
def placeBidRelease (st3 : St) (itemId : ItemId) (user : UserId)
    (current_highest : Option Bid) : St :=
  match current_highest with
  | some hb => if hb.bidder ≠ user then releaseHold st3 itemId hb.bidder else st3
  | none => st3

/-- Bid row insert, audit row and ledger append (views.py lines 306-323). -/
def placeBidCommit (c : Clock) (st4 : St) (itemId : ItemId) (user : UserId)
    (amount : Money) : St :=
  { st4 with
    bids := ({ item := itemId, bidder := user, amount := amount, created_at := c.now, is_active := true } : Bid) :: st4.bids
    audits := ({ user := user, item := some itemId, tx_type := "BID", status := "INFO", amount := amount } : AuditTx) :: st4.audits
    ledger := st4.ledger ++ ["bid_placed"] }

/-- Minimum admissible bid (views.py lines 218-220 and 246-248):
`max(starting_price, leader + Decimal('1.00'))`. -/
def minAllowed (st1 : St) (itemId : ItemId) (item : AuctionItem) : Money :=
  match highestActiveBid st1 itemId with
  | some hb => max item.starting_price (hb.amount + 100)
  | none => item.starting_price

/-- Additional funds a bid needs beyond the bidder's existing active hold
(views.py lines 233-236 and 257-263): `amount - hold.amount` when an active
hold exists, else the full `amount`, floored at zero. -/
def holdDelta (st : St) (itemId : ItemId) (user : UserId) (amount : Money) : Money :=
  match findActiveHold st itemId user with
  | some h => if amount - h.amount < 0 then 0 else amount - h.amount
  | none => if amount < 0 then 0 else amount

/-- Atomic tail of `place_bid` after the wallet row is locked (views.py lines
253-323): the under-lock balance check, then reserve/raise, release of the
outbid leader, and the bid/audit/ledger inserts. -/
def placeBidFunded (c : Clock) (st2 : St) (itemId : ItemId) (user : UserId)
    (amount : Money) (current_highest : Option Bid) : BidOutcome × St :=
  if get_available_balance st2 user < holdDelta st2 itemId user amount then
    (BidOutcome.insufficientFunds, st2)
  else
    (BidOutcome.success,
     placeBidCommit c
       (placeBidRelease (placeBidReserve st2 itemId user amount (holdDelta st2 itemId user amount))
         itemId user current_highest)
       itemId user amount)

/-- Price and balance validation of `place_bid` (views.py lines 212-251):
minimum amount, sanity ceiling, advisory available-balance pre-check, and the
re-check of the minimum inside the transaction. -/
def placeBidPriced (c : Clock) (st1 : St) (itemId : ItemId) (user : UserId)
    (amount : Money) (item : AuctionItem) : BidOutcome × St :=
  if amount < minAllowed st1 itemId item then (BidOutcome.bidTooLow, st1)
  else if item.starting_price * 1000 < amount then (BidOutcome.bidUnreasonablyHigh, st1)
  else if get_available_balance st1 user < holdDelta st1 itemId user amount then
    (BidOutcome.insufficientFunds, st1)
  else if amount < minAllowed st1 itemId item then (BidOutcome.bidTooLow, st1)
  else placeBidFunded c (ensureWallet st1 user) itemId user amount (highestActiveBid st1 itemId)

/-- Seat and participation validation of `place_bid` (views.py lines
198-210), running on the state with the bidder's participant row ensured. -/
def placeBidSeat (c : Clock) (st1 : St) (itemId : ItemId) (user : UserId)
    (amount : Money) (item : AuctionItem) : BidOutcome × St :=
  match findParticipant st1 itemId user with
  | none => (BidOutcome.seatNotBooked, st1)
  | some participant =>
    if !participant.is_booked then (BidOutcome.seatNotBooked, st1)
    else if participant.penalty_due then (BidOutcome.penaltyDue, st1)
    else if (st1.participants.filter fun p => decide (p.item = itemId)).length < 2 then
      (BidOutcome.insufficientParticipants, st1)
    else placeBidPriced c st1 itemId user amount item

/-- Embedding of `place_bid` (views.py lines 188-346). -/
def place_bid (c : Clock) (st : St) (itemId : ItemId) (user : UserId) (amount : Money) :
    BidOutcome × St :=
  match findItem st itemId with
  | none => (BidOutcome.itemNotFound, st)
  | some item =>
    if item.owner = user then (BidOutcome.ownerCannotBid, st)
    else if !canAcceptBids item c then (BidOutcome.biddingClosed, st)
    else placeBidSeat c (ensureParticipant st itemId user) itemId user amount item

/-! ## Settlement engine (utils.py lines 167-242 and views.py lines 901-928) -/

/-- Hold consumption step of settlement (utils.py lines 188-217): the
winner's active hold, if any, becomes `consumed` and the wallet is debited by
the hold amount with no balance check, logging `hold_consume`. -/
def consumeWinnerHold (st1 : St) (itemId : ItemId) (winner : UserId) : St :=
  match findActiveHold st1 itemId winner with
  | none => st1
  | some h =>
    let holds' := updateFirst (isActiveFor itemId winner)
      (fun x => { x with status := HoldStatus.consumed }) st1.holds
    let stB := ensureWallet { st1 with holds := holds' } winner
    let wallets' := updateFirst (fun (w : Wallet) => decide (w.user = winner))
      (fun w => { w with balance := w.balance - h.amount }) stB.wallets
    let stC := { stB with wallets := wallets' }
    let tx : WalletTransaction :=
      { user := winner, item := some itemId, kind := TxKind.hold_consume,
        amount := h.amount,
        balance_after := (get_or_create_wallet stC winner).balance }
    let audit : AuditTx :=
      { user := winner, item := some itemId, tx_type := "PAYMENT",
        status := "SUCCESS", amount := h.amount }
    { stC with wtxs := tx :: stC.wtxs, audits := audit :: stC.audits }

/-- Item flagging, bulk release of the other active holds (a plain `update`
that emits no `WalletTransaction`) and the ledger append (utils.py lines
219-240). -/
def settleFinish (st2 : St) (itemId : ItemId) (winner : UserId) : St :=
  let items' := updateFirst (fun (i : AuctionItem) => decide (i.id = itemId))
    (fun i => { i with is_settled := true, is_active := false }) st2.items
  let holds'' := st2.holds.map fun (h : WalletHold) =>
    if decide (h.item = itemId ∧ h.status = HoldStatus.active ∧ h.user ≠ winner)
    then { h with status := HoldStatus.released } else h
  { st2 with items := items', holds := holds'', ledger := st2.ledger ++ ["auction_settled"] }

/-- Embedding of `settle_auction_item` (utils.py lines 167-242).  Returns
`false` without touching anything when the item is already settled or has no
active bid; otherwise creates the winner's order, consumes the winner's hold
(debiting the wallet unconditionally), marks the item settled and inactive,
bulk-releases every other active hold on the item (a plain `update` with no
`WalletTransaction`), and appends a ledger block. -/
def settle_auction_item (st : St) (itemId : ItemId) : Bool × St :=
  match findItem st itemId with
  | none => (false, st)
  | some item =>
    if item.is_settled then (false, st)
    else
      match highestActiveBid st itemId with
      | none => (false, st)
      | some hb =>
        let order : Order :=
          { item := itemId, buyer := hb.bidder, amount := hb.amount, status := "paid" }
        let st1 := { st with orders := order :: st.orders }
        (true, settleFinish (consumeWinnerHold st1 itemId hb.bidder) itemId hb.bidder)

inductive SettleOutcome
  | notFound
  | alreadySettled
  | notEnded
  | noBids
  | winnerSettled
  | notEligible
  deriving DecidableEq

/-- Embedding of the `settle` view (views.py lines 901-928), past its
owner/staff permission gate (which does not change state).  Already-settled
and not-yet-ended items are no-ops; with no active bid the item is marked
settled and inactive in place; otherwise `settle_auction_item` runs. -/
def settle (c : Clock) (st : St) (itemId : ItemId) : SettleOutcome × St :=
  match findItem st itemId with
  | none => (SettleOutcome.notFound, st)
  | some item =>
    if item.is_settled then (SettleOutcome.alreadySettled, st)
    else if c.now < item.ends_at then (SettleOutcome.notEnded, st)
    else
      match highestActiveBid st itemId with
      | none =>
        let items' := updateFirst (fun (i : AuctionItem) => decide (i.id = itemId))
          (fun i => { i with is_settled := true, is_active := false }) st.items
        (SettleOutcome.noBids, { st with items := items' })
      | some _ =>
        let r := settle_auction_item st itemId
        (if r.1 then SettleOutcome.winnerSettled else SettleOutcome.notEligible, r.2)

/-! ## Payment effects (`apply_payment_effects`, utils.py lines 76-164)

The Python function returns `None` on every path (a bare `return` when
`payment.processed_at` is already set, and falling off the end otherwise);
its return value is embedded as `Option Bool` with `none` for `None` so the
spec's claimed booleans are expressible.  `_generate_booking_code`'s random
output is passed in as `bookingCode`.  The `order`/`buy_now` branch inserts
an `Order` whose `item` column is non-nullable, so a payment of that purpose
without an item raises inside the atomic block and rolls everything back;
that path is the `none` arm of `effectsOf`. -/

/-- Effects branch of `apply_payment_effects`: `some` of the mutated state,
or `none` when the database insert would fail and roll the transaction
back. -/
def effectsOf (bookingCode : String) (st : St) (payment : Payment) : Option St :=
  if payment.purpose = "recharge" then
    let stA := ensureWallet st payment.buyer
    let wallets' := updateFirst (fun (w : Wallet) => decide (w.user = payment.buyer))
      (fun w => { w with balance := w.balance + payment.amount }) stA.wallets
    let stB := { stA with wallets := wallets' }
    let tx : WalletTransaction :=
      { user := payment.buyer, item := none, kind := TxKind.credit,
        amount := payment.amount,
        balance_after := (get_or_create_wallet stB payment.buyer).balance }
    let audit : AuditTx :=
      { user := payment.buyer, item := none, tx_type := "RECHARGE",
        status := "SUCCESS", amount := payment.amount }
    some { stB with wtxs := tx :: stB.wtxs, audits := audit :: stB.audits }
  else if payment.purpose = "seat" then
    let stA :=
      match payment.item with
      | none => st
      | some it =>
        let participants' := updateFirst
          (fun (p : AuctionParticipant) => decide (p.item = it ∧ p.user = payment.buyer))
          (fun p => { p with is_booked := true, paid := true, booking_code := bookingCode })
          st.participants
        { st with participants := participants' }
    let audit : AuditTx :=
      { user := payment.buyer, item := payment.item, tx_type := "PAYMENT",
        status := "SUCCESS", amount := payment.amount }
    some { stA with audits := audit :: stA.audits }
  else if payment.purpose = "penalty" then
    let stA :=
      match payment.item with
      | none => st
      | some it =>
        let participants' := updateFirst
          (fun (p : AuctionParticipant) => decide (p.item = it ∧ p.user = payment.buyer))
          (fun p => { p with penalty_due := false }) st.participants
        { st with participants := participants' }
    let audit : AuditTx :=
      { user := payment.buyer, item := payment.item, tx_type := "PAYMENT",
        status := "SUCCESS", amount := payment.amount }
    some { stA with audits := audit :: stA.audits }
  else if payment.purpose = "order" ∨ payment.purpose = "buy_now" then
    match payment.item with
    | none => none
    | some it =>
      let order : Order :=
        { item := it, buyer := payment.buyer, amount := payment.amount, status := "paid" }
      let audit : AuditTx :=
        { user := payment.buyer, item := some it, tx_type := "PAYMENT",
          status := "SUCCESS", amount := payment.amount }
      some { st with orders := order :: st.orders, audits := audit :: st.audits }
  else
    some st

/-- Final step of `apply_payment_effects` (utils.py lines 162-164): stamp
`processed_at`. -/
def markProcessed (c : Clock) (st1 : St) (pid : Nat) : St :=
  let payments' := updateFirst (fun (p : Payment) => decide (p.id = pid))
    (fun p => { p with processed_at := some c.now }) st1.payments
  { st1 with payments := payments' }

/-- Embedding of `apply_payment_effects` (utils.py lines 76-164). -/
def apply_payment_effects (c : Clock) (bookingCode : String) (st : St) (pid : Nat) :
    Option Bool × St :=
  match findPayment st pid with
  | none => (none, st)
  | some payment =>
    if payment.processed_at.isSome then (none, st)
    else
      match effectsOf bookingCode st payment with
      | none => (none, st)
      | some st1 => (none, markProcessed c st1 pid)

/-! ## Presence penalty (`presence_ping`, views.py lines 756-804)

Only the hold/bid/payment effects are modelled; the `last_seen_at` bookkeeping
for the pinging user and the 30-second offline test on the leader collapse
into the boolean `offlineLeader`. -/

/-- Primary key of the next created `Payment` row. -/
def nextPaymentId (st : St) : Nat :=
  (st.payments.map fun p => p.id).foldl max 0 + 1

/-- Penalty assessment against the offline leader (views.py lines 770-803):
a ₹200 penalty payment is created, the leader's participant row is flagged,
their active bids on the item are deactivated, any active hold is released
with a `hold_release` transaction, and a ledger block is appended. -/
def penalizeLeader (st0 : St) (itemId : ItemId) (hb : Bid) : St :=
  let pen : Payment :=
    { id := nextPaymentId st0, item := some itemId, buyer := hb.bidder,
      amount := 20000, purpose := "penalty", status := "pending",
      processed_at := none }
  let st1 := { st0 with payments := pen :: st0.payments }
  let participants' := updateFirst
    (fun (p : AuctionParticipant) => decide (p.item = itemId ∧ p.user = hb.bidder))
    (fun p => { p with penalty_due := true }) st1.participants
  let st2 := { st1 with participants := participants' }
  let bids' := st2.bids.map fun (b : Bid) =>
    if decide (b.item = itemId ∧ b.bidder = hb.bidder) && b.is_active
    then { b with is_active := false } else b
  let st3 := { st2 with bids := bids' }
  let st4 := releaseHold st3 itemId hb.bidder
  { st4 with ledger := st4.ledger ++ ["penalty_assessed"] }

/-- Leader-offline test and dispatch of `presence_ping` (views.py lines
764-803), on the state with the pinging user's participant row ensured. -/
def presencePingBody (offlineLeader : Bool) (st0 : St) (itemId : ItemId) : St :=
  match highestActiveBid st0 itemId with
  | none => st0
  | some hb =>
    match findParticipant st0 itemId hb.bidder with
    | none => st0
    | some hp =>
      if offlineLeader && !hp.penalty_due then penalizeLeader st0 itemId hb
      else st0

/-- Embedding of the penalty branch of `presence_ping` (views.py lines
756-804). -/
def presence_ping (offlineLeader : Bool) (st : St) (itemId : ItemId) (user : UserId) : St :=
  match findItem st itemId with
  | none => st
  | some _ => presencePingBody offlineLeader (ensureParticipant st itemId user) itemId

/-! ## Reachability and the active-hold invariant -/

/-- Conflict tested by the `unique_active_hold_per_user_item` constraint
(models.py lines 222-229): two rows that are both `active` for the same
`(user, item)` pair. -/
def holdConflict (a b : WalletHold) : Prop :=
  a.status = HoldStatus.active ∧ b.status = HoldStatus.active ∧
    a.user = b.user ∧ a.item = b.item

instance : DecidableRel holdConflict := fun a b => by
  unfold holdConflict; infer_instance

/-- At most one active `WalletHold` per `(user, item)` pair. -/
def atMostOneActiveHold (st : St) : Prop :=
  st.holds.Pairwise fun a b => ¬ holdConflict a b

/-- States reachable by the hold-touching operations of the engine, starting
from any seed state that has no holds at all (users, items, bids,
participants, wallets and payments may be arbitrary). -/
inductive Reachable : St → Prop
  | seed (st : St) (h : st.holds = []) : Reachable st
  | bid (c : Clock) (itemId : ItemId) (user : UserId) (amount : Money) {st : St}
      (h : Reachable st) : Reachable (place_bid c st itemId user amount).2
  | settleItem (itemId : ItemId) {st : St} (h : Reachable st) :
      Reachable (settle_auction_item st itemId).2
  | settleView (c : Clock) (itemId : ItemId) {st : St} (h : Reachable st) :
      Reachable (settle c st itemId).2
  | payment (c : Clock) (bookingCode : String) (pid : Nat) {st : St} (h : Reachable st) :
      Reachable (apply_payment_effects c bookingCode st pid).2
  | ping (offlineLeader : Bool) (itemId : ItemId) (user : UserId) {st : St}
      (h : Reachable st) : Reachable (presence_ping offlineLeader st itemId user)

/-! ## Lemmas about `updateFirst` -/

theorem mem_updateFirst {p : α → Bool} {f : α → α} :
    ∀ {l : List α} {b : α}, b ∈ updateFirst p f l →
      b ∈ l ∨ ∃ a, a ∈ l ∧ p a = true ∧ b = f a := by
  intro l
  induction l with
  | nil => intro b h; exact absurd h (List.not_mem_nil b)
  | cons a as ih =>
    intro b h
    by_cases hp : p a = true
    · rw [updateFirst, if_pos hp] at h
      rcases List.mem_cons.mp h with h1 | h2
      · exact Or.inr ⟨a, List.mem_cons_self a as, hp, h1⟩
      · exact Or.inl (List.mem_cons_of_mem a h2)
    · rw [updateFirst, if_neg hp] at h
      rcases List.mem_cons.mp h with h1 | h2
      · exact Or.inl (h1 ▸ List.mem_cons_self a as)
      · rcases ih h2 with h3 | ⟨x, hx, hpx, hb⟩
        · exact Or.inl (List.mem_cons_of_mem a h3)
        · exact Or.inr ⟨x, List.mem_cons_of_mem a hx, hpx, hb⟩

theorem mem_updateFirst_of_not_pred {p : α → Bool} {f : α → α} :
    ∀ {l : List α} {b : α}, b ∈ l → p b = false → b ∈ updateFirst p f l := by
  intro l
  induction l with
  | nil => intro b h; exact absurd h (List.not_mem_nil b)
  | cons a as ih =>
    intro b h hb
    by_cases hp : p a = true
    · rw [updateFirst, if_pos hp]
      rcases List.mem_cons.mp h with h1 | h2
      · rw [h1] at hb; rw [hb] at hp; exact absurd hp (by simp)
      · exact List.mem_cons_of_mem _ h2
    · rw [updateFirst, if_neg hp]
      rcases List.mem_cons.mp h with h1 | h2
      · exact h1 ▸ List.mem_cons_self a _
      · exact List.mem_cons_of_mem _ (ih h2 hb)

theorem updateFirst_mem_result {p : α → Bool} {f : α → α} :
    ∀ {l : List α} {a : α}, l.find? p = some a → f a ∈ updateFirst p f l := by
  intro l
  induction l with
  | nil => intro a h; simp at h
  | cons x xs ih =>
    intro a h
    by_cases hp : p x = true
    · rw [List.find?_cons_of_pos _ hp] at h
      cases h
      rw [updateFirst, if_pos hp]
      exact List.mem_cons_self _ _
    · rw [List.find?_cons_of_neg _ hp] at h
      rw [updateFirst, if_neg hp]
      exact List.mem_cons_of_mem _ (ih h)

theorem find?_updateFirst_self {p : α → Bool} {f : α → α}
    (hpres : ∀ x, p (f x) = p x) :
    ∀ l : List α, (updateFirst p f l).find? p = (l.find? p).map f := by
  intro l
  induction l with
  | nil => rfl
  | cons a as ih =>
    by_cases hp : p a = true
    · rw [updateFirst, if_pos hp, List.find?_cons_of_pos _ ((hpres a).trans hp),
        List.find?_cons_of_pos _ hp, Option.map_some']
    · rw [updateFirst, if_neg hp, List.find?_cons_of_neg _ hp, List.find?_cons_of_neg _ hp, ih]

theorem find?_updateFirst_disjoint {p q : α → Bool} {f : α → α}
    (hd : ∀ x, p x = true → q x = false ∧ q (f x) = false) :
    ∀ l : List α, (updateFirst p f l).find? q = l.find? q := by
  intro l
  induction l with
  | nil => rfl
  | cons a as ih =>
    by_cases hp : p a = true
    · rw [updateFirst, if_pos hp,
        List.find?_cons_of_neg _ (by simp [(hd a hp).2]),
        List.find?_cons_of_neg _ (by simp [(hd a hp).1])]
    · rw [updateFirst, if_neg hp]
      by_cases hq : q a = true
      · rw [List.find?_cons_of_pos _ hq, List.find?_cons_of_pos _ hq]
      · rw [List.find?_cons_of_neg _ hq, List.find?_cons_of_neg _ hq, ih]

theorem pairwise_updateFirst {R : α → α → Prop} {p : α → Bool} {f : α → α}
    (hl : ∀ a b, R a b → R (f a) b) (hr : ∀ a b, R a b → R a (f b)) :
    ∀ {l : List α}, l.Pairwise R → (updateFirst p f l).Pairwise R := by
  intro l
  induction l with
  | nil => intro h; exact h
  | cons a as ih =>
    intro hpw
    rw [List.pairwise_cons] at hpw
    by_cases hp : p a = true
    · rw [updateFirst, if_pos hp]
      exact List.pairwise_cons.mpr ⟨fun b hb => hl a b (hpw.1 b hb), hpw.2⟩
    · rw [updateFirst, if_neg hp]
      refine List.pairwise_cons.mpr ⟨?_, ih hpw.2⟩
      intro b hb
      rcases mem_updateFirst hb with h1 | ⟨x, hx, _, rfl⟩
      · exact hpw.1 b h1
      · exact hr a x (hpw.1 x hx)

/-! ## Lemmas about wallet lookup -/

theorem lookupWallet_ensure (ws : List Wallet) (u v : UserId) :
    lookupWallet (ensureWalletList ws u) v = lookupWallet ws v := by
  unfold ensureWalletList
  cases hu : ws.find? (fun w => decide (w.user = u)) with
  | some w => rfl
  | none =>
    unfold lookupWallet
    by_cases hv : u = v
    · subst hv
      rw [List.find?_cons_of_pos _ (by simp), hu]
    · rw [List.find?_cons_of_neg _ (by simp [hv])]

theorem find?_ensureWalletList_self (ws : List Wallet) (u : UserId) :
    (ensureWalletList ws u).find? (fun w => decide (w.user = u)) = some (lookupWallet ws u) := by
  unfold ensureWalletList lookupWallet
  cases hu : ws.find? (fun w => decide (w.user = u)) with
  | some w => exact hu
  | none => rw [List.find?_cons_of_pos _ (by simp)]

theorem lookupWallet_user (ws : List Wallet) (u : UserId) :
    (lookupWallet ws u).user = u := by
  unfold lookupWallet
  cases hu : ws.find? (fun w => decide (w.user = u)) with
  | some w =>
    have := List.find?_some hu
    simpa using this
  | none => rfl

theorem lookupWallet_eq_of_find? {ws : List Wallet} {u : UserId} {w : Wallet}
    (h : ws.find? (fun x => decide (x.user = u)) = some w) :
    lookupWallet ws u = w := by
  unfold lookupWallet
  rw [h]

theorem lookupWallet_adjust (ws : List Wallet) (u : UserId) (g : Money → Money) :
    lookupWallet (updateFirst (fun (w : Wallet) => decide (w.user = u))
        (fun w => { w with balance := g w.balance }) (ensureWalletList ws u)) u
      = { user := u, balance := g (lookupWallet ws u).balance } := by
  have h1 : (updateFirst (fun (w : Wallet) => decide (w.user = u))
      (fun w => { w with balance := g w.balance }) (ensureWalletList ws u)).find?
        (fun w => decide (w.user = u))
      = some { user := (lookupWallet ws u).user, balance := g (lookupWallet ws u).balance } := by
    rw [find?_updateFirst_self (by intro x; simp) (ensureWalletList ws u),
      find?_ensureWalletList_self, Option.map_some']
  rw [lookupWallet_eq_of_find? h1, lookupWallet_user]

/-! ## Frame lemmas for the engine operations -/

theorem ensureParticipant_holds (st : St) (i : ItemId) (u : UserId) :
    (ensureParticipant st i u).holds = st.holds := by
  unfold ensureParticipant; split <;> rfl

theorem ensureParticipant_wallets (st : St) (i : ItemId) (u : UserId) :
    (ensureParticipant st i u).wallets = st.wallets := by
  unfold ensureParticipant; split <;> rfl

theorem ensureParticipant_bids (st : St) (i : ItemId) (u : UserId) :
    (ensureParticipant st i u).bids = st.bids := by
  unfold ensureParticipant; split <;> rfl

theorem releaseHold_wallets (st : St) (i : ItemId) (u : UserId) :
    (releaseHold st i u).wallets = ensureWalletList st.wallets u ∨
      (releaseHold st i u).wallets = st.wallets := by
  unfold releaseHold
  cases findActiveHold st i u with
  | none => exact Or.inr rfl
  | some ph => exact Or.inl rfl

theorem releaseHold_bids (st : St) (i : ItemId) (u : UserId) :
    (releaseHold st i u).bids = st.bids := by
  unfold releaseHold
  cases findActiveHold st i u with
  | none => rfl
  | some ph => rfl

theorem releaseHold_items (st : St) (i : ItemId) (u : UserId) :
    (releaseHold st i u).items = st.items := by
  unfold releaseHold
  cases findActiveHold st i u with
  | none => rfl
  | some ph => rfl

theorem walletBalance_ensureWallet (st : St) (u v : UserId) :
    walletBalance (ensureWallet st u) v = walletBalance st v := by
  unfold walletBalance get_or_create_wallet ensureWallet
  rw [lookupWallet_ensure]

theorem walletBalance_releaseHold (st : St) (i : ItemId) (u v : UserId) :
    walletBalance (releaseHold st i u) v = walletBalance st v := by
  unfold releaseHold
  cases findActiveHold st i u with
  | none => rfl
  | some ph =>
    show (lookupWallet (ensureWalletList st.wallets u) v).balance = _
    rw [lookupWallet_ensure]
    rfl

/-! ## Preservation of the unique-active-hold invariant -/

theorem inv_holds_eq {st st' : St} (e : st'.holds = st.holds)
    (h : atMostOneActiveHold st) : atMostOneActiveHold st' := by
  unfold atMostOneActiveHold at *
  rw [e]
  exact h

theorem inv_updateFirst_status {st : St} {p : WalletHold → Bool} {s : HoldStatus}
    (hs : s ≠ HoldStatus.active) (h : atMostOneActiveHold st) :
    atMostOneActiveHold
      { st with holds := updateFirst p (fun x => { x with status := s }) st.holds } := by
  unfold atMostOneActiveHold at *
  exact pairwise_updateFirst
    (fun x b hx hc => hs hc.1)
    (fun x b hx hc => hs hc.2.1) h

theorem inv_updateFirst_amount {st : St} {p : WalletHold → Bool} {a : Money}
    (h : atMostOneActiveHold st) :
    atMostOneActiveHold
      { st with holds := updateFirst p (fun x => { x with amount := a }) st.holds } := by
  unfold atMostOneActiveHold at *
  exact pairwise_updateFirst
    (fun x b hx hc => hx ⟨hc.1, hc.2.1, hc.2.2.1, hc.2.2.2⟩)
    (fun x b hx hc => hx ⟨hc.1, hc.2.1, hc.2.2.1, hc.2.2.2⟩) h

theorem inv_map_release {st : St} {cond : WalletHold → Bool}
    (h : atMostOneActiveHold st) :
    atMostOneActiveHold
      { st with holds := st.holds.map fun x =>
          if cond x then { x with status := HoldStatus.released } else x } := by
  unfold atMostOneActiveHold at *
  refine List.Pairwise.map _ ?_ h
  intro a b hab hc
  by_cases ha : cond a = true
  · simp only [if_pos ha] at hc
    exact HoldStatus.noConfusion hc.1
  · simp only [if_neg ha] at hc
    by_cases hb : cond b = true
    · simp only [if_pos hb] at hc
      exact HoldStatus.noConfusion hc.2.1
    · simp only [if_neg hb] at hc
      exact hab hc

theorem inv_cons_active {st : St} {i : ItemId} {u : UserId} {a : Money}
    (hnone : findActiveHold st i u = none) (h : atMostOneActiveHold st) :
    atMostOneActiveHold
      { st with holds := ({ user := u, item := i, amount := a, status := HoldStatus.active } : WalletHold) :: st.holds } := by
  unfold atMostOneActiveHold at *
  refine List.pairwise_cons.mpr ⟨?_, h⟩
  intro b hb hc
  obtain ⟨-, hbact, hbu, hbi⟩ := hc
  have hpred : isActiveFor i u b = true := by
    simp only [isActiveFor, decide_eq_true_eq]
    exact ⟨hbi.symm, hbu.symm, hbact⟩
  have h2 := List.find?_eq_none.mp hnone b hb
  exact h2 hpred

theorem raiseHold_inv (st : St) (i : ItemId) (u : UserId) (a d : Money)
    (h : atMostOneActiveHold st) : atMostOneActiveHold (raiseHold st i u a d) :=
  inv_holds_eq rfl (inv_updateFirst_amount h)

theorem createHold_inv (st : St) (i : ItemId) (u : UserId) (a : Money)
    (hnone : findActiveHold st i u = none) (h : atMostOneActiveHold st) :
    atMostOneActiveHold (createHold st i u a) :=
  inv_holds_eq rfl (inv_cons_active hnone h)

theorem releaseHold_inv (st : St) (i : ItemId) (u : UserId)
    (h : atMostOneActiveHold st) : atMostOneActiveHold (releaseHold st i u) := by
  unfold releaseHold
  cases findActiveHold st i u with
  | none => exact h
  | some ph =>
    exact inv_holds_eq rfl (inv_updateFirst_status (fun hx => HoldStatus.noConfusion hx) h)

theorem placeBidReserve_inv (st : St) (i : ItemId) (u : UserId) (a d : Money)
    (h : atMostOneActiveHold st) : atMostOneActiveHold (placeBidReserve st i u a d) := by
  unfold placeBidReserve
  split
  · split
    · exact raiseHold_inv _ _ _ _ _ h
    · exact h
  · rename_i heq
    exact createHold_inv _ _ _ _ heq h

theorem placeBidRelease_inv (st : St) (i : ItemId) (u : UserId) (ch : Option Bid)
    (h : atMostOneActiveHold st) : atMostOneActiveHold (placeBidRelease st i u ch) := by
  unfold placeBidRelease
  split
  · split
    · exact releaseHold_inv _ _ _ h
    · exact h
  · exact h

theorem placeBidCommit_inv (c : Clock) (st : St) (i : ItemId) (u : UserId) (a : Money)
    (h : atMostOneActiveHold st) : atMostOneActiveHold (placeBidCommit c st i u a) :=
  inv_holds_eq rfl h

theorem consumeWinnerHold_inv (st : St) (i : ItemId) (w : UserId)
    (h : atMostOneActiveHold st) : atMostOneActiveHold (consumeWinnerHold st i w) := by
  unfold consumeWinnerHold
  split
  · exact h
  · exact inv_holds_eq rfl (inv_updateFirst_status (fun hx => HoldStatus.noConfusion hx) h)

theorem settleFinish_inv (st : St) (i : ItemId) (w : UserId)
    (h : atMostOneActiveHold st) : atMostOneActiveHold (settleFinish st i w) := by
  unfold settleFinish
  exact inv_holds_eq rfl (inv_map_release h)

theorem placeBidFunded_inv (c : Clock) (st2 : St) (i : ItemId) (u : UserId) (a : Money)
    (ch : Option Bid) (h : atMostOneActiveHold st2) :
    atMostOneActiveHold (placeBidFunded c st2 i u a ch).2 := by
  unfold placeBidFunded
  split
  · exact h
  · exact placeBidCommit_inv _ _ _ _ _
      (placeBidRelease_inv _ _ _ _ (placeBidReserve_inv _ _ _ _ _ h))

theorem placeBidPriced_inv (c : Clock) (st1 : St) (i : ItemId) (u : UserId) (a : Money)
    (item : AuctionItem) (h : atMostOneActiveHold st1) :
    atMostOneActiveHold (placeBidPriced c st1 i u a item).2 := by
  unfold placeBidPriced
  repeat' split
  all_goals first
    | exact h
    | exact placeBidFunded_inv _ _ _ _ _ _ (inv_holds_eq rfl h)

theorem placeBidSeat_inv (c : Clock) (st1 : St) (i : ItemId) (u : UserId) (a : Money)
    (item : AuctionItem) (h : atMostOneActiveHold st1) :
    atMostOneActiveHold (placeBidSeat c st1 i u a item).2 := by
  unfold placeBidSeat
  repeat' split
  all_goals first
    | exact h
    | exact placeBidPriced_inv _ _ _ _ _ _ h

theorem place_bid_inv (c : Clock) (st : St) (i : ItemId) (u : UserId) (a : Money)
    (h : atMostOneActiveHold st) : atMostOneActiveHold (place_bid c st i u a).2 := by
  unfold place_bid
  repeat' split
  all_goals first
    | exact h
    | exact placeBidSeat_inv _ _ _ _ _ _ (inv_holds_eq (ensureParticipant_holds st i u) h)

theorem settle_auction_item_inv (st : St) (i : ItemId)
    (h : atMostOneActiveHold st) : atMostOneActiveHold (settle_auction_item st i).2 := by
  unfold settle_auction_item
  repeat' split
  all_goals first
    | exact h
    | exact settleFinish_inv _ _ _ (consumeWinnerHold_inv _ _ _ (inv_holds_eq rfl h))

theorem settle_inv (c : Clock) (st : St) (i : ItemId)
    (h : atMostOneActiveHold st) : atMostOneActiveHold (settle c st i).2 := by
  unfold settle
  repeat' split
  all_goals first
    | exact h
    | exact inv_holds_eq rfl h
    | exact settle_auction_item_inv _ _ h

theorem effectsOf_holds (code : String) (st : St) (p : Payment) {st1 : St}
    (h : effectsOf code st p = some st1) : st1.holds = st.holds := by
  unfold effectsOf at h
  repeat' split at h
  all_goals first
    | (cases h; rfl)
    | cases h

theorem apply_payment_effects_inv (c : Clock) (code : String) (st : St) (pid : Nat)
    (h : atMostOneActiveHold st) :
    atMostOneActiveHold (apply_payment_effects c code st pid).2 := by
  unfold apply_payment_effects
  repeat' split
  all_goals first
    | exact h
    | (rename_i st1 heff
       exact inv_holds_eq ((effectsOf_holds _ _ _ heff : st1.holds = st.holds)) h)

theorem penalizeLeader_inv (st0 : St) (i : ItemId) (hb : Bid)
    (h : atMostOneActiveHold st0) : atMostOneActiveHold (penalizeLeader st0 i hb) := by
  unfold penalizeLeader
  exact inv_holds_eq rfl (releaseHold_inv _ _ _ (inv_holds_eq rfl h))

theorem presencePingBody_inv (off : Bool) (st0 : St) (i : ItemId)
    (h : atMostOneActiveHold st0) : atMostOneActiveHold (presencePingBody off st0 i) := by
  unfold presencePingBody
  repeat' split
  all_goals first
    | exact h
    | exact penalizeLeader_inv _ _ _ h

theorem presence_ping_inv (off : Bool) (st : St) (i : ItemId) (u : UserId)
    (h : atMostOneActiveHold st) : atMostOneActiveHold (presence_ping off st i u) := by
  unfold presence_ping
  repeat' split
  all_goals first
    | exact h
    | exact presencePingBody_inv _ _ _ (inv_holds_eq (ensureParticipant_holds st i u) h)

/-! ## Wallet-balance frame lemmas for bidding -/

theorem walletBalance_ensureParticipant (st : St) (i : ItemId) (u : UserId) (v : UserId) :
    walletBalance (ensureParticipant st i u) v = walletBalance st v := by
  unfold ensureParticipant
  split <;> rfl

theorem walletBalance_raiseHold (st : St) (i : ItemId) (u : UserId) (a d : Money)
    (v : UserId) : walletBalance (raiseHold st i u a d) v = walletBalance st v := rfl

theorem walletBalance_createHold (st : St) (i : ItemId) (u : UserId) (a : Money)
    (v : UserId) : walletBalance (createHold st i u a) v = walletBalance st v := rfl

theorem walletBalance_placeBidReserve (st : St) (i : ItemId) (u : UserId) (a d : Money)
    (v : UserId) : walletBalance (placeBidReserve st i u a d) v = walletBalance st v := by
  unfold placeBidReserve
  repeat' split
  all_goals rfl

theorem walletBalance_placeBidRelease (st : St) (i : ItemId) (u : UserId)
    (ch : Option Bid) (v : UserId) :
    walletBalance (placeBidRelease st i u ch) v = walletBalance st v := by
  unfold placeBidRelease
  repeat' split
  all_goals first
    | rfl
    | exact walletBalance_releaseHold _ _ _ _

theorem walletBalance_placeBidCommit (c : Clock) (st : St) (i : ItemId) (u : UserId)
    (a : Money) (v : UserId) :
    walletBalance (placeBidCommit c st i u a) v = walletBalance st v := rfl

theorem walletBalance_placeBidFunded (c : Clock) (st2 : St) (i : ItemId) (u : UserId)
    (a : Money) (ch : Option Bid) (v : UserId) :
    walletBalance (placeBidFunded c st2 i u a ch).2 v = walletBalance st2 v := by
  unfold placeBidFunded
  split
  · rfl
  · rw [walletBalance_placeBidCommit, walletBalance_placeBidRelease,
      walletBalance_placeBidReserve]

theorem walletBalance_placeBidPriced (c : Clock) (st1 : St) (i : ItemId) (u : UserId)
    (a : Money) (item : AuctionItem) (v : UserId) :
    walletBalance (placeBidPriced c st1 i u a item).2 v = walletBalance st1 v := by
  unfold placeBidPriced
  repeat' split
  all_goals first
    | rfl
    | rw [walletBalance_placeBidFunded, walletBalance_ensureWallet]

theorem walletBalance_placeBidSeat (c : Clock) (st1 : St) (i : ItemId) (u : UserId)
    (a : Money) (item : AuctionItem) (v : UserId) :
    walletBalance (placeBidSeat c st1 i u a item).2 v = walletBalance st1 v := by
  unfold placeBidSeat
  repeat' split
  all_goals first
    | rfl
    | exact walletBalance_placeBidPriced _ _ _ _ _ _ _

/-! ## Equational lemmas for settlement -/

theorem findItem_eq_of_items {st st' : St} (e : st.items = st'.items) (i : ItemId) :
    findItem st i = findItem st' i := by
  unfold findItem
  rw [e]

theorem consumeWinnerHold_items (st : St) (i : ItemId) (w : UserId) :
    (consumeWinnerHold st i w).items = st.items := by
  unfold consumeWinnerHold
  split <;> rfl

theorem findItem_updateFirst_mark (st : St) (i : ItemId) :
    findItem { st with items := updateFirst (fun (x : AuctionItem) => decide (x.id = i)) (fun x => { x with is_settled := true, is_active := false }) st.items } i
      = (findItem st i).map (fun it => { it with is_settled := true, is_active := false }) := by
  unfold findItem
  exact @find?_updateFirst_self _ (fun (x : AuctionItem) => decide (x.id = i))
    (fun x => { x with is_settled := true, is_active := false }) (fun x => rfl) st.items

theorem findItem_settleFinish (st : St) (i : ItemId) (w : UserId) :
    findItem (settleFinish st i w) i
      = (findItem st i).map (fun it => { it with is_settled := true, is_active := false }) := by
  unfold settleFinish findItem
  exact @find?_updateFirst_self _ (fun (x : AuctionItem) => decide (x.id = i))
    (fun x => { x with is_settled := true, is_active := false }) (fun x => rfl) st.items

theorem settle_auction_item_settled {st : St} {i : ItemId} {item : AuctionItem}
    (hf : findItem st i = some item) (hs : item.is_settled = true) :
    settle_auction_item st i = (false, st) := by
  unfold settle_auction_item
  rw [hf]
  simp [hs]

theorem settle_auction_item_noBids {st : St} {i : ItemId} {item : AuctionItem}
    (hf : findItem st i = some item) (hs : item.is_settled = false)
    (hb : highestActiveBid st i = none) :
    settle_auction_item st i = (false, st) := by
  unfold settle_auction_item
  rw [hf]
  simp [hs, hb]

theorem settle_auction_item_winner {st : St} {i : ItemId} {item : AuctionItem} {hb : Bid}
    (hf : findItem st i = some item) (hs : item.is_settled = false)
    (hbid : highestActiveBid st i = some hb) :
    settle_auction_item st i =
      (true, settleFinish
        (consumeWinnerHold { st with orders := ({ item := i, buyer := hb.bidder, amount := hb.amount, status := "paid" } : Order) :: st.orders } i hb.bidder)
        i hb.bidder) := by
  unfold settle_auction_item
  rw [hf]
  simp [hs, hbid]

theorem settle_alreadySettled {c : Clock} {st : St} {i : ItemId} {item : AuctionItem}
    (hf : findItem st i = some item) (hs : item.is_settled = true) :
    settle c st i = (SettleOutcome.alreadySettled, st) := by
  unfold settle
  rw [hf]
  simp [hs]

theorem settle_notEnded {c : Clock} {st : St} {i : ItemId} {item : AuctionItem}
    (hf : findItem st i = some item) (hs : item.is_settled = false)
    (ht : c.now < item.ends_at) : settle c st i = (SettleOutcome.notEnded, st) := by
  unfold settle
  rw [hf]
  simp [hs, ht]

theorem settle_noBids_eq {c : Clock} {st : St} {i : ItemId} {item : AuctionItem}
    (hf : findItem st i = some item) (hs : item.is_settled = false)
    (ht : ¬ c.now < item.ends_at) (hb : highestActiveBid st i = none) :
    settle c st i = (SettleOutcome.noBids,
      { st with items := updateFirst (fun (x : AuctionItem) => decide (x.id = i)) (fun x => { x with is_settled := true, is_active := false }) st.items }) := by
  unfold settle
  rw [hf]
  simp [hs, ht, hb]

theorem settle_winner_eq {c : Clock} {st : St} {i : ItemId} {item : AuctionItem} {hb : Bid}
    (hf : findItem st i = some item) (hs : item.is_settled = false)
    (ht : ¬ c.now < item.ends_at) (hbid : highestActiveBid st i = some hb) :
    settle c st i = (if (settle_auction_item st i).1 then SettleOutcome.winnerSettled
      else SettleOutcome.notEligible, (settle_auction_item st i).2) := by
  unfold settle
  rw [hf]
  simp [hs, ht, hbid]

theorem settle_marks_item {c : Clock} {st : St} {i : ItemId} {item : AuctionItem}
    (hf : findItem st i = some item)
    (ho : (settle c st i).1 = SettleOutcome.winnerSettled ∨
      (settle c st i).1 = SettleOutcome.noBids) :
    findItem (settle c st i).2 i
      = some { item with is_settled := true, is_active := false } := by
  by_cases hs : item.is_settled = true
  · rw [settle_alreadySettled hf hs] at ho
    simp at ho
  · have hs' : item.is_settled = false := by
      cases hval : item.is_settled
      · rfl
      · exact absurd hval hs
    by_cases ht : c.now < item.ends_at
    · rw [settle_notEnded hf hs' ht] at ho
      simp at ho
    · cases hbid : highestActiveBid st i with
      | none =>
        rw [settle_noBids_eq hf hs' ht hbid]
        show findItem { st with items := _ } i = _
        rw [findItem_updateFirst_mark, hf]
        rfl
      | some hbw =>
        rw [settle_winner_eq hf hs' ht hbid]
        show findItem (settle_auction_item st i).2 i = _
        rw [settle_auction_item_winner hf hs' hbid]
        show findItem (settleFinish _ i hbw.bidder) i = _
        rw [findItem_settleFinish]
        have hX : findItem (consumeWinnerHold { st with orders := ({ item := i, buyer := hbw.bidder, amount := hbw.amount, status := "paid" } : Order) :: st.orders } i hbw.bidder) i = findItem st i := by
          refine findItem_eq_of_items ?_ i
          rw [consumeWinnerHold_items]
        rw [hX, hf]
        rfl

theorem consumeWinnerHold_balance {st : St} {i : ItemId} {w : UserId} {h : WalletHold}
    (hh : findActiveHold st i w = some h) :
    walletBalance (consumeWinnerHold st i w) w = walletBalance st w - h.amount := by
  unfold consumeWinnerHold
  rw [hh]
  show (lookupWallet (updateFirst (fun (x : Wallet) => decide (x.user = w))
    (fun x => { x with balance := x.balance - h.amount }) (ensureWalletList st.wallets w)) w).balance = _
  have hadj := @lookupWallet_adjust st.wallets w (fun b => b - h.amount)
  rw [hadj]
  rfl

theorem consumeWinnerHold_mem_holds {st : St} {i : ItemId} {w : UserId} {h' : WalletHold}
    (hm : h' ∈ st.holds) (hp : isActiveFor i w h' = false) :
    h' ∈ (consumeWinnerHold st i w).holds := by
  unfold consumeWinnerHold
  cases findActiveHold st i w with
  | none => exact hm
  | some h => exact mem_updateFirst_of_not_pred hm hp

theorem consumeWinnerHold_wtxs (st : St) (i : ItemId) (w : UserId) :
    (consumeWinnerHold st i w).wtxs = st.wtxs ∨
      ∃ h, findActiveHold st i w = some h ∧
        (consumeWinnerHold st i w).wtxs =
          ({ user := w, item := some i, kind := TxKind.hold_consume, amount := h.amount,
             balance_after := walletBalance (consumeWinnerHold st i w) w } : WalletTransaction) :: st.wtxs := by
  unfold consumeWinnerHold
  cases hh : findActiveHold st i w with
  | none => exact Or.inl rfl
  | some h => exact Or.inr ⟨h, rfl, rfl⟩

theorem settleFinish_mem_released {st : St} {i : ItemId} {w : UserId} {h' : WalletHold}
    (hm : h' ∈ st.holds) (hi : h'.item = i) (hs : h'.status = HoldStatus.active)
    (hw : h'.user ≠ w) :
    ({ h' with status := HoldStatus.released } : WalletHold) ∈ (settleFinish st i w).holds := by
  unfold settleFinish
  show _ ∈ st.holds.map _
  refine List.mem_map.mpr ⟨h', hm, ?_⟩
  simp [hi, hs, hw]

theorem settleFinish_wtxs (st : St) (i : ItemId) (w : UserId) :
    (settleFinish st i w).wtxs = st.wtxs := rfl

/-! ## Equational lemmas for payment effects -/

theorem effectsOf_recharge (code : String) (st : St) (p : Payment)
    (hp : p.purpose = "recharge") :
    ∃ st1, effectsOf code st p = some st1 ∧
      walletBalance st1 p.buyer = walletBalance st p.buyer + p.amount ∧
      st1.payments = st.payments ∧
      st1.holds = st.holds ∧
      (st1.wtxs.filter fun t => decide (t.kind = TxKind.credit ∧ t.user = p.buyer)).length
        = (st.wtxs.filter fun t => decide (t.kind = TxKind.credit ∧ t.user = p.buyer)).length + 1 := by
  unfold effectsOf
  rw [if_pos hp]
  refine ⟨_, rfl, ?_, rfl, rfl, ?_⟩
  · show (lookupWallet (updateFirst (fun (x : Wallet) => decide (x.user = p.buyer))
      (fun x => { x with balance := x.balance + p.amount }) (ensureWalletList st.wallets p.buyer)) p.buyer).balance = _
    have hadj := @lookupWallet_adjust st.wallets p.buyer (fun b => b + p.amount)
    rw [hadj]
    rfl
  · show (List.filter _ (_ :: st.wtxs)).length = _
    rw [List.filter_cons_of_pos (by simp)]
    rfl

theorem findPayment_markProcessed (c : Clock) (st1 : St) (pid : Nat) :
    findPayment (markProcessed c st1 pid) pid
      = (findPayment st1 pid).map (fun p => { p with processed_at := some c.now }) := by
  unfold markProcessed findPayment
  exact @find?_updateFirst_self _ (fun (p : Payment) => decide (p.id = pid))
    (fun p => { p with processed_at := some c.now }) (fun x => rfl) st1.payments

theorem apply_payment_effects_processed {c : Clock} {code : String} {st : St} {pid : Nat}
    {p : Payment} (hf : findPayment st pid = some p) (hpr : p.processed_at.isSome = true) :
    apply_payment_effects c code st pid = (none, st) := by
  unfold apply_payment_effects
  rw [hf]
  simp [hpr]

theorem apply_payment_effects_eq {c : Clock} {code : String} {st : St} {pid : Nat}
    {p : Payment} {st1 : St} (hf : findPayment st pid = some p)
    (hpr : p.processed_at = none) (heff : effectsOf code st p = some st1) :
    apply_payment_effects c code st pid = (none, markProcessed c st1 pid) := by
  unfold apply_payment_effects
  rw [hf]
  simp [hpr, heff]

/-! ## Equational lemmas for bidding -/

theorem findActiveHold_eq_of_holds {st st' : St} (e : st.holds = st'.holds)
    (i : ItemId) (u : UserId) : findActiveHold st i u = findActiveHold st' i u := by
  unfold findActiveHold
  rw [e]

theorem highestActiveBid_eq_of_bids {st st' : St} (e : st.bids = st'.bids) (i : ItemId) :
    highestActiveBid st i = highestActiveBid st' i := by
  unfold highestActiveBid
  rw [e]

theorem findActiveHold_raiseHold (st : St) (i : ItemId) (u : UserId) (a d : Money) :
    findActiveHold (raiseHold st i u a d) i u
      = (findActiveHold st i u).map (fun h => { h with amount := a }) := by
  unfold raiseHold findActiveHold
  exact @find?_updateFirst_self _ (isActiveFor i u) (fun h => { h with amount := a })
    (fun x => rfl) st.holds

theorem findActiveHold_createHold (st : St) (i : ItemId) (u : UserId) (a : Money) :
    findActiveHold (createHold st i u a) i u
      = some { user := u, item := i, amount := a, status := HoldStatus.active } := by
  unfold createHold findActiveHold
  rw [List.find?_cons_of_pos _ (by simp [isActiveFor])]

theorem findActiveHold_placeBidReserve_other (st : St) (i : ItemId) (u : UserId)
    (a d : Money) (w : UserId) (hw : w ≠ u) :
    findActiveHold (placeBidReserve st i u a d) i w = findActiveHold st i w := by
  unfold placeBidReserve
  split
  · split
    · unfold raiseHold findActiveHold
      refine find?_updateFirst_disjoint ?_ st.holds
      intro x hx
      simp only [isActiveFor, decide_eq_true_eq] at hx
      obtain ⟨hxi, hxu, hxs⟩ := hx
      constructor
      · simp only [isActiveFor, decide_eq_false_iff_not]
        rintro ⟨-, h2, -⟩
        exact hw (h2.symm.trans hxu)
      · simp only [isActiveFor, decide_eq_false_iff_not]
        rintro ⟨-, h2, -⟩
        exact hw (h2.symm.trans hxu)
    · rfl
  · unfold createHold findActiveHold
    rw [List.find?_cons_of_neg _ ?_]
    simp only [isActiveFor, decide_eq_true_eq]
    rintro ⟨-, h2, -⟩
    exact hw h2.symm

theorem findActiveHold_releaseHold_other (st : St) (i : ItemId) (w u : UserId)
    (hw : w ≠ u) : findActiveHold (releaseHold st i w) i u = findActiveHold st i u := by
  unfold releaseHold
  cases hf : findActiveHold st i w with
  | none => rfl
  | some ph =>
    show (updateFirst (isActiveFor i w) _ st.holds).find? (isActiveFor i u) = _
    refine find?_updateFirst_disjoint ?_ st.holds
    intro x hx
    simp only [isActiveFor, decide_eq_true_eq] at hx
    obtain ⟨hxi, hxu, hxs⟩ := hx
    constructor
    · simp only [isActiveFor, decide_eq_false_iff_not]
      rintro ⟨-, h2, -⟩
      exact hw (hxu.symm.trans h2)
    · simp only [isActiveFor, decide_eq_false_iff_not]
      rintro ⟨-, -, h3⟩
      exact HoldStatus.noConfusion h3

theorem findActiveHold_placeBidRelease_self (st : St) (i : ItemId) (u : UserId)
    (ch : Option Bid) :
    findActiveHold (placeBidRelease st i u ch) i u = findActiveHold st i u := by
  unfold placeBidRelease
  split
  · split
    · rename_i hb hne
      exact findActiveHold_releaseHold_other st i hb.bidder u hne
    · rfl
  · rfl

theorem releaseHold_mem_released {st : St} {i : ItemId} {w : UserId} {ph : WalletHold}
    (hf : findActiveHold st i w = some ph) :
    ({ ph with status := HoldStatus.released } : WalletHold) ∈ (releaseHold st i w).holds := by
  unfold releaseHold
  rw [hf]
  show _ ∈ updateFirst (isActiveFor i w) _ st.holds
  exact updateFirst_mem_result hf

theorem wtxs_mem_placeBidRelease {st : St} {i : ItemId} {u : UserId} {ch : Option Bid}
    {t : WalletTransaction} (hm : t ∈ st.wtxs) : t ∈ (placeBidRelease st i u ch).wtxs := by
  unfold placeBidRelease
  split
  · split
    · unfold releaseHold
      split
      · exact hm
      · exact List.mem_cons_of_mem _ hm
    · exact hm
  · exact hm

theorem findActiveHold_placeBidCommit (c : Clock) (st : St) (i : ItemId) (u : UserId)
    (a : Money) (j : ItemId) (v : UserId) :
    findActiveHold (placeBidCommit c st i u a) j v = findActiveHold st j v := rfl

theorem wtxs_placeBidCommit (c : Clock) (st : St) (i : ItemId) (u : UserId) (a : Money) :
    (placeBidCommit c st i u a).wtxs = st.wtxs := rfl

theorem holds_placeBidCommit (c : Clock) (st : St) (i : ItemId) (u : UserId) (a : Money) :
    (placeBidCommit c st i u a).holds = st.holds := rfl

set_option maxHeartbeats 1000000 in
theorem place_bid_success_shape (c : Clock) (st : St) (i : ItemId) (u : UserId) (a : Money)
    (hs : (place_bid c st i u a).1 = BidOutcome.success) :
    (place_bid c st i u a).2 =
      placeBidCommit c
        (placeBidRelease
          (placeBidReserve (ensureWallet (ensureParticipant st i u) u) i u a
            (holdDelta (ensureWallet (ensureParticipant st i u) u) i u a))
          i u (highestActiveBid (ensureParticipant st i u) i))
        i u a := by
  rcases hpb : place_bid c st i u a with ⟨o, st'⟩
  rw [hpb] at hs
  simp at hs
  subst hs
  unfold place_bid placeBidSeat placeBidPriced placeBidFunded at hpb
  repeat' split at hpb
  all_goals simp_all

/-! ## Concrete states used to exercise the claims -/

/-- Empty database. -/
def stSeed : St := ⟨[], [], [], [], [], [], [], [], [], []⟩

/-- Clock inside market hours. -/
def cl0 : Clock := ⟨50, 10⟩

/-- Wallet with zero balance but an active ₹5.00 hold. -/
def stNegBal : St :=
  { stSeed with
    holds := [⟨1, 1, 500, HoldStatus.active⟩],
    wallets := [⟨1, 0⟩] }

/-- An ended, unsettled item with no bids at all. -/
def item0 : AuctionItem := ⟨1, 99, 100, 0, 10, true, false⟩

def stNoBid : St := { stSeed with items := [item0] }

/-- An ended item whose winning bidder's hold exceeds their wallet balance. -/
def stSettleNeg : St :=
  { stSeed with
    items := [item0],
    bids := [⟨1, 2, 10000, 1, true⟩],
    holds := [⟨2, 1, 10000, HoldStatus.active⟩],
    wallets := [⟨2, 5000⟩] }

/-- An ended item with a winner (user 2) and a losing bidder (user 3), both
with active holds. -/
def stTwoHolds : St :=
  { stSeed with
    items := [item0],
    bids := [⟨1, 2, 20000, 1, true⟩, ⟨1, 3, 10000, 2, true⟩],
    holds := [⟨2, 1, 20000, HoldStatus.active⟩, ⟨3, 1, 10000, HoldStatus.active⟩],
    wallets := [⟨2, 30000⟩, ⟨3, 10000⟩] }

/-- A pending, unprocessed ₹50.00 recharge payment for user 7. -/
def stRecharge : St :=
  { stSeed with payments := [⟨1, none, 7, 5000, "recharge", "pending", none⟩] }

/-- A live item (id 1, ends at 100) with two booked participants, user 1
holding a funded wallet, ready for a successful bid. -/
def stBidReady : St :=
  { stSeed with
    items := [⟨1, 99, 100, 0, 100, true, false⟩],
    participants := [⟨1, 1, true, false, false, ""⟩, ⟨1, 2, true, false, false, ""⟩],
    wallets := [⟨1, 100000⟩] }

/-! ## Claims -/

/-- Claim C1 counterexample: on an empty ledger `append_ledger_block` uses
the one-character genesis `previous_hash` `"0"`, not a 64-zero string, and
the stored hash is the digest of the JSON block serialization (with
timestamp and nonce), not of `str(index) + "|" + previous_hash +
"|" + str(payload)`. -/
theorem ledger_format_cex :
    demoGenesis.previous_hash = "0" ∧
    demoGenesis.previous_hash ≠ specGenesisPrev ∧
    demoGenesis.nonce = 0 ∧
    demoGenesis.hash ≠ digestTag (specHashInput 0 "0" "\"d\"") := by
  have hn : demoGenesis.nonce = 0 := by
    show Nat.find _ = 0
    exact (Nat.find_eq_zero _).mpr (by decide)
  have hh : demoGenesis.hash = digestTag (blockString 0 "t" "0" "\"d\"" 0) := by
    have h0 : demoGenesis.hash
        = digestTag (blockString 0 "t" "0" "\"d\"" demoGenesis.nonce) := rfl
    rw [h0, hn]
  refine ⟨rfl, by decide, hn, ?_⟩
  rw [hh]
  decide

/-- Claim C1 (corrected): every block appended by `append_ledger_block` has
index `last.index + 1` (`0` on an empty chain), `previous_hash` equal to the
previous block's stored hash (the one-character string `"0"` on an empty
chain), and stored hash equal to `digest` of the sorted-key JSON
serialization of `(data, index, nonce, previous_hash, timestamp)`, where the
nonce is the proof-of-work solution making the hash start with `"0000"`; the
spec's `digest(index|previous_hash|payload)` format and 64-zero genesis do
not hold. -/
theorem append_ledger_block_spec (digest : String → String) (now : String)
    (chain : List LedgerBlock) (dataJson : String)
    (h : ∃ n, powPred digest now (prevHash chain) dataJson (nextIndex chain) n = true) :
    (append_ledger_block digest now chain dataJson h).index = nextIndex chain ∧
    (append_ledger_block digest now chain dataJson h).previous_hash = prevHash chain ∧
    (append_ledger_block digest now chain dataJson h).hash
      = digest (blockString (nextIndex chain) now (prevHash chain) dataJson
          (append_ledger_block digest now chain dataJson h).nonce) ∧
    strStartsWith (append_ledger_block digest now chain dataJson h).hash "0000" = true := by
  refine ⟨rfl, rfl, rfl, ?_⟩
  exact Nat.find_spec h

/-- Claim C1 witness: the corrected statement instantiated on the concrete
genesis append. -/
theorem append_ledger_block_spec_witness :
    demoGenesis.index = nextIndex [] ∧
    demoGenesis.previous_hash = prevHash [] ∧
    demoGenesis.hash = digestTag (blockString (nextIndex []) "t" (prevHash []) "\"d\"" demoGenesis.nonce) ∧
    strStartsWith demoGenesis.hash "0000" = true :=
  append_ledger_block_spec digestTag "t" [] "\"d\"" ⟨0, by decide⟩

/-- Claim C2: at every state reachable by the engine's operations (bid
placement, settlement, payment effects, presence-ping penalties) from a
hold-free seed, at most one `active` `WalletHold` exists per `(user, item)`
pair. -/
theorem active_hold_unique {st : St} (h : Reachable st) : atMostOneActiveHold st := by
  induction h with
  | seed st hh =>
    unfold atMostOneActiveHold
    rw [hh]
    exact List.Pairwise.nil
  | bid c i u a h ih => exact place_bid_inv c _ i u a ih
  | settleItem i h ih => exact settle_auction_item_inv _ i ih
  | settleView c i h ih => exact settle_inv c _ i ih
  | payment c code pid h ih => exact apply_payment_effects_inv c code _ pid ih
  | ping off i u h ih => exact presence_ping_inv off _ i u ih

/-- Claim C2 witness: the invariant after a concrete successful bid from the
seed state. -/
theorem active_hold_unique_witness :
    atMostOneActiveHold (place_bid cl0 stBidReady 1 1 500).2 :=
  active_hold_unique (Reachable.bid cl0 1 1 500 (Reachable.seed stBidReady rfl))

/-- Claim C3 counterexample: `get_available_balance` applies no floor — on a
wallet with zero balance and an active ₹5.00 hold it returns `-500`
(hundredths), which is negative. -/
theorem available_balance_cex :
    get_available_balance stNegBal 1 = -500 ∧ get_available_balance stNegBal 1 < 0 := by
  decide

/-- Claim C3 (corrected): `get_available_balance` returns
`wallet.balance − Σ active holds` with no flooring at zero: the result is
negative exactly when the user's active holds exceed the wallet balance. -/
theorem available_balance_no_floor (st : St) (u : UserId) :
    get_available_balance st u < 0 ↔
      (get_or_create_wallet st u).balance < sumActiveHolds st u := by
  unfold get_available_balance
  exact sub_neg

/-- Clock past `item0.ends_at`, inside market hours. -/
def cl20 : Clock := ⟨20, 10⟩

/-- A later clock for second calls. -/
def cl30 : Clock := ⟨30, 11⟩

/-- Claim C4: `settle` is idempotent — if the item is already settled, or
the current time precedes `ends_at`, it is a no-op (the engine
`settle_auction_item` returns `false` on a settled item), and a second call
after any settling call is a no-op with no new `Order`, `Payment` or
`LedgerBlock` rows (the state, hence each of those tables, is unchanged). -/
theorem settle_idempotent (c c' : Clock) (st : St) (i : ItemId) (item : AuctionItem)
    (hf : findItem st i = some item) :
    (item.is_settled = true →
      settle c st i = (SettleOutcome.alreadySettled, st) ∧
      settle_auction_item st i = (false, st)) ∧
    (item.is_settled = false → c.now < item.ends_at →
      settle c st i = (SettleOutcome.notEnded, st)) ∧
    ((settle c st i).1 = SettleOutcome.winnerSettled ∨
        (settle c st i).1 = SettleOutcome.noBids →
      settle c' (settle c st i).2 i = (SettleOutcome.alreadySettled, (settle c st i).2)) := by
  refine ⟨fun hs => ⟨settle_alreadySettled hf hs, settle_auction_item_settled hf hs⟩,
    fun hs ht => settle_notEnded hf hs ht, fun ho => ?_⟩
  exact settle_alreadySettled (settle_marks_item hf ho) rfl

/-- Claim C4 witness: settling the ended no-bid item once and calling
`settle` again leaves the state untouched the second time. -/
theorem settle_idempotent_witness :
    settle cl30 (settle cl20 stNoBid 1).2 1
      = (SettleOutcome.alreadySettled, (settle cl20 stNoBid 1).2) :=
  (settle_idempotent cl20 cl30 stNoBid 1 item0 (by decide)).2.2 (by decide)

/-- Claim C5 counterexample: settlement debits the winner's wallet by the
hold amount with no balance check — with a ₹100.00 hold and a ₹50.00
balance the wallet ends at `-5000` hundredths, which is negative. -/
theorem settle_negative_balance_cex :
    (settle_auction_item stSettleNeg 1).1 = true ∧
    walletBalance (settle_auction_item stSettleNeg 1).2 2 = -5000 ∧
    walletBalance (settle_auction_item stSettleNeg 1).2 2 < 0 := by
  decide

/-- Claim C5 (corrected): when settlement finds the winner's active hold it
debits the wallet by the hold amount unconditionally — there is no
`InsufficientWalletBalance` check and no fallback, so the balance goes
negative whenever the hold exceeds it. -/
theorem settle_debits_unconditionally (st : St) (i : ItemId) (item : AuctionItem)
    (hb : Bid) (h : WalletHold) (hf : findItem st i = some item)
    (hs : item.is_settled = false) (hbid : highestActiveBid st i = some hb)
    (hh : findActiveHold st i hb.bidder = some h) :
    (settle_auction_item st i).1 = true ∧
    walletBalance (settle_auction_item st i).2 hb.bidder
      = walletBalance st hb.bidder - h.amount := by
  rw [settle_auction_item_winner hf hs hbid]
  exact ⟨rfl, consumeWinnerHold_balance hh⟩

/-- Claim C5 witness: the unconditional debit on the concrete underfunded
winner. -/
theorem settle_debits_unconditionally_witness :
    (settle_auction_item stSettleNeg 1).1 = true ∧
    walletBalance (settle_auction_item stSettleNeg 1).2 2
      = walletBalance stSettleNeg 2 - 10000 :=
  settle_debits_unconditionally stSettleNeg 1 item0 ⟨1, 2, 10000, 1, true⟩
    ⟨2, 1, 10000, HoldStatus.active⟩ (by decide) (by decide) (by decide) (by decide)

/-- Claim C7 counterexample: on an ended, unsettled item with no active
bid, the boolean settlement function `settle_auction_item` returns `false`
and changes nothing — it neither marks the item settled nor returns true. -/
theorem settle_no_bid_cex :
    item0.is_settled = false ∧ item0.ends_at ≤ cl20.now ∧
    findItem stNoBid 1 = some item0 ∧
    highestActiveBid stNoBid 1 = none ∧
    settle_auction_item stNoBid 1 = (false, stNoBid) := by
  decide

/-- Claim C7 (corrected): in the no-winner case the `settle` view marks the
item `is_settled = true` and `is_active = false` (outcome `noBids`, with no
boolean returned), while the boolean engine `settle_auction_item` returns
`false` and performs no changes. -/
theorem settle_no_bid_split (c : Clock) (st : St) (i : ItemId) (item : AuctionItem)
    (hf : findItem st i = some item) (hs : item.is_settled = false)
    (ht : ¬ c.now < item.ends_at) (hb : highestActiveBid st i = none) :
    (settle c st i).1 = SettleOutcome.noBids ∧
    findItem (settle c st i).2 i
      = some { item with is_settled := true, is_active := false } ∧
    settle_auction_item st i = (false, st) := by
  refine ⟨?_, ?_, settle_auction_item_noBids hf hs hb⟩
  · rw [settle_noBids_eq hf hs ht hb]
  · exact settle_marks_item hf (Or.inr (by rw [settle_noBids_eq hf hs ht hb]))

/-- Claim C7 witness: the corrected statement on the concrete ended no-bid
item. -/
theorem settle_no_bid_split_witness :
    (settle cl20 stNoBid 1).1 = SettleOutcome.noBids ∧
    findItem (settle cl20 stNoBid 1).2 1
      = some { item0 with is_settled := true, is_active := false } ∧
    settle_auction_item stNoBid 1 = (false, stNoBid) :=
  settle_no_bid_split cl20 stNoBid 1 item0 (by decide) (by decide) (by decide) (by decide)

/-- Claim C8 counterexample: settling an item with a winner and one losing
active hold releases the loser's hold but emits no `hold_release`
`WalletTransaction` at all — the bulk `update` writes only the status. -/
theorem settle_release_no_tx_cex :
    (settle_auction_item stTwoHolds 1).1 = true ∧
    (⟨3, 1, 10000, HoldStatus.released⟩ : WalletHold) ∈ (settle_auction_item stTwoHolds 1).2.holds ∧
    ((settle_auction_item stTwoHolds 1).2.wtxs.filter
      fun t => decide (t.kind = TxKind.hold_release)) = [] := by
  decide

/-- Claim C8 (corrected): in every settlement with a winning bid, every
other active hold on the item transitions to `released`, but no
`hold_release` `WalletTransaction` is emitted for any of them — the set of
`hold_release` transactions is exactly what it was before the call. -/
theorem settle_release_without_tx (st : St) (i : ItemId) (item : AuctionItem) (hb : Bid)
    (hf : findItem st i = some item) (hs : item.is_settled = false)
    (hbid : highestActiveBid st i = some hb) :
    (settle_auction_item st i).1 = true ∧
    (∀ h' ∈ st.holds, h'.item = i → h'.status = HoldStatus.active → h'.user ≠ hb.bidder →
      ({ h' with status := HoldStatus.released } : WalletHold) ∈ (settle_auction_item st i).2.holds) ∧
    ((settle_auction_item st i).2.wtxs.filter fun t => decide (t.kind = TxKind.hold_release))
      = st.wtxs.filter fun t => decide (t.kind = TxKind.hold_release) := by
  rw [settle_auction_item_winner hf hs hbid]
  refine ⟨rfl, ?_, ?_⟩
  · intro h' hm hi hsa hu
    show _ ∈ (settleFinish (consumeWinnerHold _ i hb.bidder) i hb.bidder).holds
    refine settleFinish_mem_released ?_ hi hsa hu
    refine consumeWinnerHold_mem_holds hm ?_
    simp only [isActiveFor, decide_eq_false_iff_not]
    rintro ⟨-, h2, -⟩
    exact hu h2
  · show ((settleFinish (consumeWinnerHold _ i hb.bidder) i hb.bidder).wtxs.filter _) = _
    rw [settleFinish_wtxs]
    rcases consumeWinnerHold_wtxs { st with orders := ({ item := i, buyer := hb.bidder, amount := hb.amount, status := "paid" } : Order) :: st.orders } i hb.bidder with hw | ⟨hx, -, hw⟩
    · rw [hw]
    · rw [hw, List.filter_cons_of_neg (by simp)]

/-- Claim C8 witness: the corrected statement on the concrete two-bidder
settlement, applied to the loser's hold. -/
theorem settle_release_without_tx_witness :
    (settle_auction_item stTwoHolds 1).1 = true ∧
    (⟨3, 1, 10000, HoldStatus.released⟩ : WalletHold) ∈ (settle_auction_item stTwoHolds 1).2.holds ∧
    ((settle_auction_item stTwoHolds 1).2.wtxs.filter fun t => decide (t.kind = TxKind.hold_release))
      = stTwoHolds.wtxs.filter fun t => decide (t.kind = TxKind.hold_release) := by
  have h := settle_release_without_tx stTwoHolds 1 item0 ⟨1, 2, 20000, 1, true⟩
    (by decide) (by decide) (by decide)
  exact ⟨h.1, h.2.1 ⟨3, 1, 10000, HoldStatus.active⟩ (by decide) rfl rfl (by decide), h.2.2⟩

/-- Claim C9 counterexample: `apply_payment_effects` returns `None` on both
the first call (the claim says `true`) and later calls (the claim says
`false`); the wallet credit itself is applied exactly once. -/
theorem apply_payment_none_cex :
    (apply_payment_effects cl0 "" stRecharge 1).1 = none ∧
    (apply_payment_effects cl0 "" stRecharge 1).1 ≠ some true ∧
    walletBalance (apply_payment_effects cl0 "" stRecharge 1).2 7 = 5000 ∧
    (apply_payment_effects cl30 "" (apply_payment_effects cl0 "" stRecharge 1).2 1).1 ≠ some false ∧
    (apply_payment_effects cl30 "" (apply_payment_effects cl0 "" stRecharge 1).2 1).2
      = (apply_payment_effects cl0 "" stRecharge 1).2 := by
  decide

/-- Claim C9 (corrected): `apply_payment_effects` is idempotent but returns
`None` (Python `None`, not a boolean) on every path: the first call on an
unprocessed recharge credits the wallet exactly once (one `credit`
transaction) and stamps `processed_at`; every later call is a no-op that
leaves the state unchanged and also returns `None`. -/
theorem apply_payment_idempotent (c c' : Clock) (code code' : String) (st : St)
    (pid : Nat) (p : Payment) (hf : findPayment st pid = some p)
    (hpr : p.processed_at = none) (hp : p.purpose = "recharge") :
    (apply_payment_effects c code st pid).1 = none ∧
    walletBalance (apply_payment_effects c code st pid).2 p.buyer
      = walletBalance st p.buyer + p.amount ∧
    (((apply_payment_effects c code st pid).2.wtxs.filter
        fun t => decide (t.kind = TxKind.credit ∧ t.user = p.buyer)).length
      = (st.wtxs.filter fun t => decide (t.kind = TxKind.credit ∧ t.user = p.buyer)).length + 1) ∧
    findPayment (apply_payment_effects c code st pid).2 pid
      = some { p with processed_at := some c.now } ∧
    apply_payment_effects c' code' (apply_payment_effects c code st pid).2 pid
      = (none, (apply_payment_effects c code st pid).2) := by
  obtain ⟨st1, heff, hbal, hpay, hholds, hcnt⟩ := effectsOf_recharge code st p hp
  have heq := @apply_payment_effects_eq c code st pid p st1 hf hpr heff
  rw [heq]
  have hf1 : findPayment st1 pid = some p := by
    unfold findPayment
    rw [hpay]
    exact hf
  have hf2 : findPayment (markProcessed c st1 pid) pid
      = some { p with processed_at := some c.now } := by
    rw [findPayment_markProcessed, hf1]
    rfl
  exact ⟨rfl, hbal, hcnt, hf2, apply_payment_effects_processed hf2 rfl⟩

/-- Claim C9 witness: the corrected statement on the concrete recharge
payment. -/
theorem apply_payment_idempotent_witness :
    (apply_payment_effects cl0 "" stRecharge 1).1 = none ∧
    walletBalance (apply_payment_effects cl0 "" stRecharge 1).2 7
      = walletBalance stRecharge 7 + 5000 ∧
    (((apply_payment_effects cl0 "" stRecharge 1).2.wtxs.filter
        fun t => decide (t.kind = TxKind.credit ∧ t.user = 7)).length
      = (stRecharge.wtxs.filter fun t => decide (t.kind = TxKind.credit ∧ t.user = 7)).length + 1) ∧
    findPayment (apply_payment_effects cl0 "" stRecharge 1).2 1
      = some ⟨1, none, 7, 5000, "recharge", "pending", some cl0.now⟩ ∧
    apply_payment_effects cl30 "" (apply_payment_effects cl0 "" stRecharge 1).2 1
      = (none, (apply_payment_effects cl0 "" stRecharge 1).2) :=
  apply_payment_idempotent cl0 cl30 "" "" stRecharge 1
    ⟨1, none, 7, 5000, "recharge", "pending", none⟩ (by decide) rfl rfl

/-- Claim C10: `place_bid` never modifies any wallet's balance — on every
invocation, successful or rejected, every user's balance reads the same
after the call as before it. -/
theorem place_bid_preserves_balances (c : Clock) (st : St) (i : ItemId) (u : UserId)
    (a : Money) (v : UserId) :
    walletBalance (place_bid c st i u a).2 v = walletBalance st v := by
  unfold place_bid
  repeat' split
  all_goals first
    | rfl
    | rw [walletBalance_placeBidSeat, walletBalance_ensureParticipant]

set_option maxHeartbeats 1000000 in
/-- Claim C6: on every successful `place_bid`, the bidder's existing active
hold is raised to the bid amount exactly when the amount exceeds it (with a
`hold_reserve` transaction for the delta) and is never shrunk; with no
existing active hold a fresh one is created at the full amount (with a
`hold_reserve` transaction for the full amount); and when a different user
was the previous leader and had an active hold, that hold transitions to
`released`. -/
theorem place_bid_hold_update (c : Clock) (st : St) (itemId : ItemId) (user : UserId)
    (amount : Money) (hs : (place_bid c st itemId user amount).1 = BidOutcome.success) :
    (∀ h0, findActiveHold st itemId user = some h0 →
      (h0.amount < amount →
        findActiveHold (place_bid c st itemId user amount).2 itemId user
            = some { h0 with amount := amount } ∧
        ({ user := user, item := some itemId, kind := TxKind.hold_reserve,
           amount := amount - h0.amount, balance_after := walletBalance st user } : WalletTransaction)
          ∈ (place_bid c st itemId user amount).2.wtxs) ∧
      (amount ≤ h0.amount →
        findActiveHold (place_bid c st itemId user amount).2 itemId user = some h0)) ∧
    (findActiveHold st itemId user = none →
      findActiveHold (place_bid c st itemId user amount).2 itemId user
          = some { user := user, item := itemId, amount := amount, status := HoldStatus.active } ∧
      ({ user := user, item := some itemId, kind := TxKind.hold_reserve,
         amount := amount, balance_after := walletBalance st user } : WalletTransaction)
        ∈ (place_bid c st itemId user amount).2.wtxs) ∧
    (∀ hb, highestActiveBid st itemId = some hb → hb.bidder ≠ user →
      ∀ ph, findActiveHold st itemId hb.bidder = some ph →
        ({ ph with status := HoldStatus.released } : WalletHold)
          ∈ (place_bid c st itemId user amount).2.holds) := by
  have hshape := place_bid_success_shape c st itemId user amount hs
  have fh2w : ∀ w, findActiveHold (ensureWallet (ensureParticipant st itemId user) user) itemId w
      = findActiveHold st itemId w :=
    fun w => findActiveHold_eq_of_holds (ensureParticipant_holds st itemId user) itemId w
  have hchEq : highestActiveBid (ensureParticipant st itemId user) itemId
      = highestActiveBid st itemId :=
    highestActiveBid_eq_of_bids (ensureParticipant_bids st itemId user) itemId
  have hbal2 : (get_or_create_wallet (ensureWallet (ensureParticipant st itemId user) user) user).balance
      = walletBalance st user := by
    show walletBalance (ensureWallet (ensureParticipant st itemId user) user) user = _
    rw [walletBalance_ensureWallet, walletBalance_ensureParticipant]
  refine ⟨?_, ?_, ?_⟩
  · intro h0 hfind
    have hfind2 : findActiveHold (ensureWallet (ensureParticipant st itemId user) user) itemId user
        = some h0 := by rw [fh2w]; exact hfind
    constructor
    · intro hlt
      have hD : holdDelta (ensureWallet (ensureParticipant st itemId user) user) itemId user amount
          = amount - h0.amount := by
        unfold holdDelta
        simp only [hfind2]
        rw [if_neg (by simp only [not_lt, sub_nonneg]; exact le_of_lt hlt)]
      have hpos : 0 < holdDelta (ensureWallet (ensureParticipant st itemId user) user) itemId user amount := by
        rw [hD]
        exact sub_pos.mpr hlt
      have hR : placeBidReserve (ensureWallet (ensureParticipant st itemId user) user) itemId user amount
          (holdDelta (ensureWallet (ensureParticipant st itemId user) user) itemId user amount)
          = raiseHold (ensureWallet (ensureParticipant st itemId user) user) itemId user amount
              (holdDelta (ensureWallet (ensureParticipant st itemId user) user) itemId user amount) := by
        unfold placeBidReserve
        simp only [hfind2]
        rw [if_pos hpos]
      constructor
      · rw [hshape, findActiveHold_placeBidCommit, findActiveHold_placeBidRelease_self, hR,
          findActiveHold_raiseHold, hfind2]
        rfl
      · rw [hshape, wtxs_placeBidCommit]
        refine wtxs_mem_placeBidRelease ?_
        rw [hR, ← hD, ← hbal2]
        exact List.mem_cons_self _ _
    · intro hle
      have hD0 : holdDelta (ensureWallet (ensureParticipant st itemId user) user) itemId user amount = 0 := by
        unfold holdDelta
        simp only [hfind2]
        split
        · rfl
        · rename_i hnneg
          exact le_antisymm (sub_nonpos.mpr hle) (not_lt.mp hnneg)
      have hR : placeBidReserve (ensureWallet (ensureParticipant st itemId user) user) itemId user amount
          (holdDelta (ensureWallet (ensureParticipant st itemId user) user) itemId user amount)
          = ensureWallet (ensureParticipant st itemId user) user := by
        unfold placeBidReserve
        simp only [hfind2]
        rw [if_neg (by rw [hD0]; exact lt_irrefl 0)]
      rw [hshape, findActiveHold_placeBidCommit, findActiveHold_placeBidRelease_self, hR]
      exact hfind2
  · intro hnone
    have hnone2 : findActiveHold (ensureWallet (ensureParticipant st itemId user) user) itemId user
        = none := by rw [fh2w]; exact hnone
    have hR : placeBidReserve (ensureWallet (ensureParticipant st itemId user) user) itemId user amount
        (holdDelta (ensureWallet (ensureParticipant st itemId user) user) itemId user amount)
        = createHold (ensureWallet (ensureParticipant st itemId user) user) itemId user amount := by
      unfold placeBidReserve
      simp only [hnone2]
    constructor
    · rw [hshape, findActiveHold_placeBidCommit, findActiveHold_placeBidRelease_self, hR,
        findActiveHold_createHold]
    · rw [hshape, wtxs_placeBidCommit]
      refine wtxs_mem_placeBidRelease ?_
      rw [hR, ← hbal2]
      exact List.mem_cons_self _ _
  · intro hb hbb hbne ph hph
    have hch : highestActiveBid (ensureParticipant st itemId user) itemId = some hb := by
      rw [hchEq]; exact hbb
    have hphR : findActiveHold (placeBidReserve (ensureWallet (ensureParticipant st itemId user) user) itemId user amount
        (holdDelta (ensureWallet (ensureParticipant st itemId user) user) itemId user amount)) itemId hb.bidder
        = some ph := by
      rw [findActiveHold_placeBidReserve_other _ _ _ _ _ _ hbne, fh2w hb.bidder]
      exact hph
    have hL : placeBidRelease (placeBidReserve (ensureWallet (ensureParticipant st itemId user) user) itemId user amount
        (holdDelta (ensureWallet (ensureParticipant st itemId user) user) itemId user amount)) itemId user
        (highestActiveBid (ensureParticipant st itemId user) itemId)
        = releaseHold (placeBidReserve (ensureWallet (ensureParticipant st itemId user) user) itemId user amount
            (holdDelta (ensureWallet (ensureParticipant st itemId user) user) itemId user amount)) itemId hb.bidder := by
      unfold placeBidRelease
      simp only [hch]
      rw [if_pos hbne]
    rw [hshape, holds_placeBidCommit, hL]
    exact releaseHold_mem_released hphR


/-- Claim C6 witness: a concrete successful first bid creates the hold at
the full amount with its `hold_reserve` transaction. -/
theorem place_bid_hold_update_witness :
    findActiveHold (place_bid cl0 stBidReady 1 1 500).2 1 1
        = some ⟨1, 1, 500, HoldStatus.active⟩ ∧
    ({ user := 1, item := some 1, kind := TxKind.hold_reserve, amount := 500,
       balance_after := walletBalance stBidReady 1 } : WalletTransaction)
      ∈ (place_bid cl0 stBidReady 1 1 500).2.wtxs :=
  (place_bid_hold_update cl0 stBidReady 1 1 500 (by decide)).2.1 (by decide)

end Auction
